import Mathlib

/-!
Verification development for the PDF-manual extraction toy repository.

The Python sources are shallowly embedded over `List Char` / `List String`:

* `StrDelim.get_spans` (strdelim.py) — delimiter scanner producing content
  spans; the page-break and line-break regexes are alternations of single
  characters (the `\r\n` alternative of the line-break regex is unreachable
  because `\r` precedes it in the alternation), so `finditer` is modelled by
  the occurrence list of a character predicate.
* `PdfPageText` / `PdfPageSequence` (text_data_model.py) — the span caches are
  modelled as computed values (the Python `cached_property` is a pure,
  idempotent memoization of the same value); Python tuple indexing, including
  its negative-index wrap-around, is modelled by `pyIndex`.
* `TextBall` (textball.py) — form-feed page breaks over the loaded bytes;
  byte-level form-feed search commutes with UTF-8 decoding (a `\f` byte never
  occurs inside a multi-byte sequence), so bytes are modelled as `List Char`.
* `TextCleanup` (text_cleanup.py) — each regex substitution is embedded as an
  executable scanner that follows the exact matching semantics (alternation
  order, greediness, possessive quantifiers, word boundaries, and `$`
  matching at end-of-string or before a final newline) of its pattern.
  `\w`, `isalnum` are modelled over the ASCII range; `\s`/`str.strip` use the
  Python whitespace set.
* The per-page cleaning steps of the two orchestrators
  (intel_manual_extract.py current and `_deprecated`) with file I/O abstracted
  to (filename, content-lines) pairs.
-/

/-- The Python whitespace set: characters matched by `\s` (for `str` patterns)
and stripped by `str.strip()`. -/
def pyWhitespace : List Char :=
  [' ', '\t', '\n', '\r', '\x0b', '\x0c',
   '\x1c', '\x1d', '\x1e', '\x1f', '\x85', '\xa0',
   '\u1680', '\u2000', '\u2001', '\u2002', '\u2003', '\u2004', '\u2005',
   '\u2006', '\u2007', '\u2008', '\u2009', '\u200A',
   '\u2028', '\u2029', '\u202F', '\u205F', '\u3000']

def pyIsSpace (c : Char) : Bool := pyWhitespace.contains c

/-- Python `\w` (word character), restricted to the ASCII range. -/
def isWordChar (c : Char) : Bool := c.isAlphanum || c == '_'

def isDigitChar (c : Char) : Bool := c.isDigit

/-- The character class `[1-9A-Z]` heading a page identifier. -/
def isPageIdHead (c : Char) : Bool := (c.isDigit && !(c == '0')) || c.isUpper

/-- The page-break alternation `\f|\x1a|\x00|\x03|\x04` of
`StrDelim.get_pagebreak_regex` (single characters only). -/
def pagebreakChar (c : Char) : Bool :=
  c == '\x0c' || c == '\x1a' || c == '\x00' || c == '\x03' || c == '\x04'

/-- The characters actually matched by `StrDelim.get_linebreak_regex`:
every alternative is a single character except `\r\n`, which is dead code
because the `\r` alternative precedes it. -/
def linebreakChar (c : Char) : Bool :=
  c == '\n' || c == '\r' || c == '\x0b' || c == '\x0c' ||
  c == '\x1c' || c == '\x1d' || c == '\x1e' || c == '\x85' ||
  c == '\u2028' || c == '\u2029'

/-- Form feed, the only page break recognised by `TextBall._fetch_pagebreaks`. -/
def formfeedChar (c : Char) : Bool := c == '\x0c'

/-- `text[start:stop]` for `0 ≤ start ≤ stop` (the only shape the scanner
produces). -/
def strSlice (cs : List Char) (sp : Nat × Nat) : List Char :=
  (cs.drop sp.1).take (sp.2 - sp.1)

/-- `pattern.finditer(text)` for a single-character alternation: the spans
`(m.start(), m.end())` of all matches in left-to-right order. -/
def finditer1 (p : Char → Bool) : List Char → List (Nat × Nat)
  | [] => []
  | c :: cs =>
    (if p c then [((0 : Nat), (1 : Nat))] else []) ++
      (finditer1 p cs).map (fun sp => (sp.1 + 1, sp.2 + 1))

def shiftSpan (sp : Nat × Nat) : Nat × Nat := (sp.1 + 1, sp.2 + 1)

/-- The zip of consecutive delimiter spans into content spans, as in the
comprehension of `StrDelim.get_spans`: element `i` is
`(delim_spans[i-1][1], delim_spans[i][0])`. -/
def spanChain : Nat → List (Nat × Nat) → List (Nat × Nat)
  | _, [] => []
  | prev, sp :: rest => (prev, sp.1) :: spanChain sp.2 rest

namespace StrDelim

/-- `StrDelim.get_spans`: synthetic zero-length delimiters at both ends,
content spans between consecutive delimiter matches. -/
def get_spans (p : Char → Bool) (text : List Char) : List (Nat × Nat) :=
  let delim_spans :=
    ((0 : Nat), (0 : Nat)) :: (finditer1 p text ++ [(text.length, text.length)])
  List.zipWith (fun a b => (a.2, b.1)) delim_spans delim_spans.tail

def get_line_spans (text : List Char) : List (Nat × Nat) :=
  get_spans linebreakChar text

def get_page_spans (text : List Char) : List (Nat × Nat) :=
  get_spans pagebreakChar text

end StrDelim

/-- Reference splitter: the list of content substrings directly, by recursion
on the text. -/
def contentSplit (p : Char → Bool) : List Char → List (List Char)
  | [] => [[]]
  | c :: cs =>
    if p c then [] :: contentSplit p cs
    else
      match contentSplit p cs with
      | s :: ss => (c :: s) :: ss
      | [] => [[c]]

/-- Interleave `k+1` content pieces with `k` delimiter substrings, in order. -/
def interleave : List (List Char) → List Char → List Char
  | [], _ => []
  | x :: _, [] => x
  | x :: xs, d :: ds => x ++ d :: interleave xs ds

/-- Python sequence indexing with an `int` subscript: indices in
`[0, len)` and the wrap-around indices in `[-len, 0)` succeed, anything else
raises `IndexError` (modelled as `none`). -/
def pyIndex {α : Type} (l : List α) (i : Int) : Option α :=
  if 0 ≤ i ∧ i < (l.length : Int) then l.get? i.toNat
  else if -(l.length : Int) ≤ i ∧ i < 0 then l.get? ((l.length : Int) + i).toNat
  else none

structure PdfPageLine where
  page_idx : Int
  pdf_pagenum : Int
  line_idx : Int
  char_start : Nat
  char_stop : Nat
  text : List Char
deriving DecidableEq

structure PdfPageText where
  page_idx : Int
  pdf_pagenum : Int
  page_text : List Char
deriving DecidableEq

structure PdfPageSequence where
  pdf_first_pagenum : Int
  full_text : List Char
deriving DecidableEq

def PdfPageText.line_spans (pg : PdfPageText) : List (Nat × Nat) :=
  StrDelim.get_line_spans pg.page_text

def PdfPageText.len (pg : PdfPageText) : Nat := pg.line_spans.length

/-- `PdfPageText.__getitem__`: index into the cached line spans (Python tuple
indexing), build the `PdfPageLine` on demand. -/
def PdfPageText.getitem (pg : PdfPageText) (line_idx : Int) : Option PdfPageLine :=
  (pyIndex pg.line_spans line_idx).map fun sp =>
    PdfPageLine.mk pg.page_idx pg.pdf_pagenum line_idx sp.1 sp.2 (strSlice pg.page_text sp)

def PdfPageSequence.page_spans (s : PdfPageSequence) : List (Nat × Nat) :=
  StrDelim.get_page_spans s.full_text

def PdfPageSequence.len (s : PdfPageSequence) : Nat := s.page_spans.length

/-- `PdfPageSequence.__getitem__`: index into the cached page spans (Python
tuple indexing), slice the page text out on demand. -/
def PdfPageSequence.getitem (s : PdfPageSequence) (page_idx : Int) : Option PdfPageText :=
  (pyIndex s.page_spans page_idx).map fun sp =>
    PdfPageText.mk page_idx (s.pdf_first_pagenum + page_idx) (strSlice s.full_text sp)

/-- The page text of page `i` (a natural index), empty for an invalid index. -/
def PdfPageSequence.pageTextAt (s : PdfPageSequence) (i : Nat) : List Char :=
  match s.getitem (Int.ofNat i) with
  | some pg => pg.page_text
  | none => []

namespace TextBall

/-- `TextBall._fetch_pagebreaks`: positions of every form feed, in order. -/
def pageBreaks : List Char → List Nat
  | [] => []
  | c :: cs =>
    (if formfeedChar c then [(0 : Nat)] else []) ++ (pageBreaks cs).map (· + 1)

/-- `TextBall.get_page_count`: `0` for empty data, number of form feeds plus
one otherwise. -/
def get_page_count (cs : List Char) : Nat :=
  if cs.length = 0 then 0 else (pageBreaks cs).length + 1

/-- `TextBall.get_page_bytes`: explicit bounds check (`ValueError`, modelled
as `none`), then the slice between the neighbouring form feeds. -/
def get_page_bytes (cs : List Char) (page_idx : Int) : Option (List Char) :=
  let page_count := get_page_count cs
  if 0 ≤ page_idx ∧ page_idx < (page_count : Int) then
    let idx := page_idx.toNat
    let pb := pageBreaks cs
    let pb_start := if idx = 0 then 0 else pb.getD (idx - 1) 0 + 1
    let pb_end := if idx < pb.length then pb.getD idx 0 else cs.length
    some (strSlice cs (pb_start, pb_end))
  else none

end TextBall

/-- `str.strip()`: remove leading and trailing Python whitespace. -/
def stripChars (l : List Char) : List Char :=
  ((l.dropWhile pyIsSpace).reverse.dropWhile pyIsSpace).reverse

def pyStrip (s : String) : String := String.mk (stripChars s.data)

/-- Length of the run of characters satisfying `p` at the head of `l`. -/
def countLeading (p : Char → Bool) (l : List Char) : Nat :=
  (l.takeWhile p).length

/-- `$` of a Python pattern (without `re.MULTILINE`): matches at end of
string, or just before a final newline. -/
def endCond (l : List Char) (j : Nat) : Bool :=
  (j == l.length) || ((j + 1 == l.length) && (l.getD j ' ' == '\n'))

/-- `d` consecutive digits starting at position `pos`. -/
def digitsRun (l : List Char) (pos : Nat) (d : Nat) : Bool :=
  (pos + d ≤ l.length) && ((l.drop pos).take d).all isDigitChar

/-- The core `[1-9A-Z]-\d{1,3}` at position `pos` followed by `$`
(`\d{1,3}` greedy: three digits tried first): returns the `(start, stop)`
of the token on success. -/
def pageidCore (l : List Char) (pos : Nat) : Option (Nat × Nat) :=
  if (pos + 1 < l.length) && isPageIdHead (l.getD pos ' ') &&
      (l.getD (pos + 1) ' ' == '-') then
    if digitsRun l (pos + 2) 3 && endCond l (pos + 5) then some (pos, pos + 5)
    else if digitsRun l (pos + 2) 2 && endCond l (pos + 4) then some (pos, pos + 4)
    else if digitsRun l (pos + 2) 1 && endCond l (pos + 3) then some (pos, pos + 3)
    else none
  else none

/-- A match of `_RE_PAGEID = (\b[1-9A-Z]-\d{1,3}\b)$` starting at position
`i`: the leading word boundary, then the core token; the trailing `\b` is
implied by `$` (end of string, or a newline to the right). -/
def matchPageidAt (l : List Char) (i : Nat) : Option (Nat × Nat) :=
  if (i == 0) || !(isWordChar (l.getD (i - 1) ' ')) then pageidCore l i
  else none

/-- `_RE_PAGEID.search`: the leftmost match. -/
def pageidFind (l : List Char) : Option (Nat × Nat) :=
  (List.range l.length).findSome? fun i =>
    (matchPageidAt l i).map fun sp => (i, sp.2)

/-- One pass of `_RE_PAGEID.sub(r"page-\1", ...)`: replace every
non-overlapping match left to right (fuel bounds the recursion; every match
consumes at least three characters). -/
def pageidGo : Nat → List Char → List Char
  | 0, l => l
  | Nat.succ fuel, l =>
    match pageidFind l with
    | none => l
    | some (i, stop) =>
      l.take i ++ String.data "page-" ++ (l.drop i).take (stop - i) ++
        pageidGo fuel (l.drop stop)

def pageidSub (l : List Char) : List Char := pageidGo l.length l

/-- `_RE_PAGEID.search(...).group(1)`: the matched token, if any. -/
def searchPageid (l : List Char) : Option (List Char) :=
  (pageidFind l).map fun r => (l.drop r.1).take (r.2 - r.1)

/-- Match of `(\t|\s\s\s\s)` then the possessive tail
`(?:\t{1,}+|\s{4,}+)` at the head of `l` (`_RE_SPACETAB`): `\t` is tried
before `\s\s\s\s` for group 1, and the tab run before the whitespace run in
the tail; a failed tail after a `\t` group 1 backtracks into the
four-whitespace alternative. Returns the total match length. -/
def spacetabTail (l : List Char) : Option Nat :=
  let t := countLeading (fun c => c == '\t') l
  if t ≥ 1 then some t
  else
    let w := countLeading pyIsSpace l
    if w ≥ 4 then some w else none

def spacetabMatch (l : List Char) : Option Nat :=
  let g1b : Option Nat :=
    if ((l.take 4).length == 4) && (l.take 4).all pyIsSpace then
      (spacetabTail (l.drop 4)).map fun k => 4 + k
    else none
  match l with
  | [] => none
  | c :: rest =>
    if c == '\t' then
      match spacetabTail rest with
      | some k => some (1 + k)
      | none => g1b
    else g1b

/-- `_RE_SPACETAB.sub("    ", line)`: scan left to right, replacing each
match with four spaces. -/
def spacetabGo : Nat → List Char → List Char
  | 0, l => l
  | Nat.succ fuel, l =>
    match spacetabMatch l with
    | some k => String.data "    " ++ spacetabGo fuel (l.drop k)
    | none =>
      match l with
      | [] => []
      | c :: rest => c :: spacetabGo fuel rest

def spacetabSub (l : List Char) : List Char := spacetabGo l.length l

/-- Maximal number of leading `\.\s` pairs (the possessive `(?:\.\s){8,}+`). -/
def dotPairs : List Char → Nat
  | a :: b :: rest => if (a == '.') && pyIsSpace b then 1 + dotPairs rest else 0
  | _ => 0

/-- Match of `_RE_DOTSPACE = (?:\.\s){8,}+\.{0,}+` at the head of `l`:
at least eight dot-space pairs, then a possessive run of dots. -/
def dotspaceMatch (l : List Char) : Option Nat :=
  let p := dotPairs l
  if p ≥ 8 then
    some (2 * p + countLeading (fun c => c == '.') (l.drop (2 * p)))
  else none

/-- `_RE_DOTSPACE.sub("  ...  ", line)`. -/
def dotspaceGo : Nat → List Char → List Char
  | 0, l => l
  | Nat.succ fuel, l =>
    match dotspaceMatch l with
    | some k => String.data "  ...  " ++ dotspaceGo fuel (l.drop k)
    | none =>
      match l with
      | [] => []
      | c :: rest => c :: dotspaceGo fuel rest

def dotspaceSub (l : List Char) : List Char := dotspaceGo l.length l

/-- The literal `Vol. ` of `_RE_VOL_PAGEID`. -/
def volLit : List Char := String.data "Vol. "

/-- The literal part `Vol\. (2[A-D])` at position `a`. -/
def isVolAt (l : List Char) (a : Nat) : Bool :=
  ((l.drop a).take 5 == volLit) && (a + 6 < l.length) &&
    (l.getD (a + 5) ' ' == '2') && (String.data "ABCD").contains (l.getD (a + 6) ' ')

/-- The tail `\s*([1-9A-Z]-\d{1,3})?$` of `_RE_VOL_PAGEID` from position `b`:
`\s*` greedy (longest whitespace run first, backtracking downwards), the
optional group tried before its omission. `some g3?` is a successful tail
with the optional group 3 span. -/
def volTail (l : List Char) (b : Nat) : Option (Option (Nat × Nat)) :=
  let wmax := countLeading pyIsSpace (l.drop b)
  (List.range (wmax + 1)).reverse.findSome? fun w =>
    let pos := b + w
    match pageidCore l pos with
    | some sp => some (some sp)
    | none => if endCond l pos then some none else none

/-- A full match of `_RE_VOL_PAGEID` with group 1 ending at `a`: group 1 is
nonempty, ends on a word boundary before `Vol. 2[A-D]`, then the tail. -/
def volMatchAt (l : List Char) (a : Nat) : Option (Option (Nat × Nat)) :=
  if (1 ≤ a) && !(isWordChar (l.getD (a - 1) ' ')) && isVolAt l a then
    volTail l (a + 7)
  else none

/-- `_RE_VOL_PAGEID.search(line)` for the anchored pattern
`^(.+)\bVol\. (2[A-D])\s*([1-9A-Z]-\d{1,3})?$`: the greedy `(.+)` (which
cannot cross a newline) prefers the longest group 1, so candidate end
positions are tried from the largest down. Returns
`(group 1, optional group 3)`. -/
def volPageidMatch (l : List Char) : Option (List Char × Option (List Char)) :=
  let limit := countLeading (fun c => !(c == '\n')) l
  ((List.range limit).reverse.map (· + 1)).findSome? fun a =>
    (volMatchAt l a).map fun g3 =>
      (l.take a, g3.map fun r => (l.drop r.1).take (r.2 - r.1))

namespace TextCleanup

/-- `TextCleanup._LINE_IGNORED`. -/
def LINE_IGNORED : List String := ["", "CONTENTS", "PAGE"]

/-- `TextCleanup.strip`. -/
def strip (ls : List String) : List String := ls.map pyStrip

/-- `TextCleanup.remove_ignored`. -/
def remove_ignored (ls : List String) : List String :=
  ls.filter fun line => !(LINE_IGNORED.contains line)

/-- `TextCleanup.replace_spacetab`. -/
def replace_spacetab (ls : List String) : List String :=
  ls.map fun line => String.mk (spacetabSub line.data)

/-- `TextCleanup.replace_dotspace`. -/
def replace_dotspace (ls : List String) : List String :=
  ls.map fun line => String.mk (dotspaceSub line.data)

/-- `TextCleanup.reformat_pageid`. -/
def reformat_pageid (ls : List String) : List String :=
  ls.map fun line => String.mk (pageidSub line.data)

/-- The mutable working state of a `TextCleanup` instance. -/
structure CleanState where
  text : List String
  page_id : Option String
  page_title : Option String
deriving DecidableEq

/-- Python truthiness of an optional string: `None` and `""` are falsy. -/
def pyTruthyStr : Option String → Bool
  | none => false
  | some s => !(s == "")

/-- What one iteration of the `scan_page_id` loop derives from a line:
`none` when `_RE_VOL_PAGEID` does not match, or when it matches but no page
id can be derived from group 3 or recovered from the title (the loop then
continues to the previous line). -/
def deriveLine (line : String) : Option (String × String) :=
  match volPageidMatch line.data with
  | none => none
  | some (t, g3) =>
    match (match g3 with
      | some v => some (String.mk v)
      | none => (searchPageid (stripChars t)).map String.mk : Option String) with
    | none => none
    | some v => some (String.mk (pageidSub v.data), String.mk (stripChars t))

/-- The `for line in reversed(self.text)` loop of `scan_page_id`, on the
already-reversed line list; `some` is the `break` with the values assigned. -/
def scanLoop : List String → Option (String × String)
  | [] => none
  | line :: rest =>
    match volPageidMatch line.data with
    | none => scanLoop rest
    | some (t, g3) =>
      match (match g3 with
        | some v => some (String.mk v)
        | none => (searchPageid (stripChars t)).map String.mk : Option String) with
      | none => scanLoop rest
      | some v => some (String.mk (pageidSub v.data), String.mk (stripChars t))

/-- `TextCleanup.scan_page_id`: early return of the cached values when either
is truthy, otherwise the backward scan; returns the `(page_id, page_title)`
pair and the updated state. -/
def scan_page_id (st : CleanState) : (Option String × Option String) × CleanState :=
  if pyTruthyStr st.page_title || pyTruthyStr st.page_id then
    ((st.page_id, st.page_title), st)
  else
    match scanLoop st.text.reverse with
    | some r => ((some r.1, some r.2), CleanState.mk st.text (some r.1) (some r.2))
    | none => ((st.page_id, st.page_title), st)

end TextCleanup

/-- A Python value stored in a profile field, as far as `_validate_profile`
inspects it (`isinstance(value, bool)` distinguishes only real booleans). -/
inductive PyVal where
  | boolVal : Bool → PyVal
  | intVal : Int → PyVal
  | strVal : String → PyVal
  | noneVal : PyVal
deriving DecidableEq

def PyVal.isBool : PyVal → Bool
  | PyVal.boolVal _ => true
  | _ => false

/-- The exception classes raised by `TextCleanup.__init__` /
`_validate_profile`. -/
inductive PyErr where
  | typeError : String → PyErr
  | valueError : String → PyErr
  | attributeError : String → PyErr
deriving DecidableEq

namespace TextCleanup

/-- The callable public attributes of a `TextCleanup` instance (what
`getattr(self, name)` finds and `callable` accepts). -/
def callableNames : List String :=
  ["strip", "remove_ignored", "scan_page_id", "remove_vol_roman",
   "replace_spacetab", "replace_dotspace", "reformat_pageid",
   "get_profile", "set_profile", "run_profile"]

/-- `name.startswith("_")`, computed on the character list. -/
def startsWithUnderscore (name : String) : Bool :=
  match name.data with
  | c :: _ => c == '_'
  | [] => false

/-- `TextCleanup._validate_profile` over the `dataclasses.asdict` view of a
profile: field names are strings by construction, so the `isinstance(name,
str)` guard always passes; the remaining checks run in source order and the
first failure raises. -/
def validate_profile : List (String × PyVal) → Except PyErr Unit
  | [] => Except.ok ()
  | (name, value) :: rest =>
    if name == "" then
      Except.error (PyErr.valueError "Profile field name cannot be an empty string.")
    else if startsWithUnderscore name then
      Except.error (PyErr.valueError "Profile field name cannot start with an underscore.")
    else if !(callableNames.contains name) then
      Except.error (PyErr.attributeError "No method found for profile field.")
    else if !(value.isBool) then
      Except.error (PyErr.typeError "Expected a boolean value.")
    else validate_profile rest

/-- `TextCleanup.__init__` with a non-`None` profile: validate the profile
before anything else; only on success is the state (lines, no page id, no
page title) constructed. -/
def init (text : List String) (profile : List (String × PyVal)) :
    Except PyErr CleanState :=
  match validate_profile profile with
  | Except.error e => Except.error e
  | Except.ok _ => Except.ok (CleanState.mk text none none)

/-- The `dataclasses.asdict` view of a well-formed `TextCleanupProfile`:
the seven fields in declaration order, each carrying a boolean. -/
def standardProfile (b1 b2 b3 b4 b5 b6 b7 : Bool) : List (String × PyVal) :=
  [("strip", PyVal.boolVal b1),
   ("remove_ignored", PyVal.boolVal b2),
   ("scan_page_id", PyVal.boolVal b3),
   ("remove_vol_roman", PyVal.boolVal b4),
   ("replace_spacetab", PyVal.boolVal b5),
   ("replace_dotspace", PyVal.boolVal b6),
   ("reformat_pageid", PyVal.boolVal b7)]

end TextCleanup

namespace PdfManualExtract

/-- `run_profile` under `_PAGES_PROFILE` (only `scan_page_id` and
`reformat_pageid` enabled, executed in field-declaration order): the scan
runs on the raw lines, then the page-id reformat rewrites them. Returns the
final lines and the discovered page id and title. -/
def runPagesProfile (lines : List String) :
    List String × Option String × Option String :=
  let st0 := TextCleanup.CleanState.mk lines none none
  let st1 := (TextCleanup.scan_page_id st0).2
  (TextCleanup.reformat_pageid st1.text, st1.page_id, st1.page_title)

/-- The five header lines written above each cleaned page. -/
def cleanpageHeader (page_id page_title : String) : List String :=
  ["Page ID: " ++ page_id, "Page title: " ++ page_title, "", "---", ""]

/-- The per-page body of `PdfManualExtract._run_pages_clean` in the current
orchestrator (intel_manual_extract.py): raises `ValueError` when no page id
was discovered (and would raise `TypeError` concatenating a `None` title);
otherwise writes `clean_<page_id>.txt` with the header and cleaned lines. -/
def run_pages_clean_page (lines : List String) : Except PyErr (String × List String) :=
  match runPagesProfile lines with
  | (outLines, some pid, some title) =>
    Except.ok ("clean_" ++ pid ++ ".txt", cleanpageHeader pid title ++ outLines)
  | (_, some _, none) => Except.error (PyErr.typeError "can only concatenate str")
  | (_, none, _) => Except.error (PyErr.valueError "Page ID not found")

/-- `f"{n:05d}"`. -/
def zeroPad5 (n : Nat) : String :=
  String.mk (List.replicate (5 - (toString n).length) '0' ++ (toString n).data)

/-- `PdfManualExtract._fs_safe_str` (deprecated orchestrator): every
character that is not alphanumeric (ASCII model of `str.isalnum`), `-` or
`_` becomes `_`; an empty string is first replaced by `"_"`. -/
def fs_safe_str (s : String) : String :=
  String.mk ((if s == "" then "_" else s).data.map fun c =>
    if c.isAlphanum || c == '-' || c == '_' then c else '_')

/-- The per-page body of `PdfManualExtract._clean_pages` in the deprecated
orchestrator: total — a missing page id falls back to the zero-padded page
number, a missing title to `"Page <n>"`; the id is made filesystem-safe and
both the cleaned filename and the header embed the fallbacks. -/
def clean_pages_page (pdf_pagenum : Nat) (lines : List String) : String × List String :=
  let r := runPagesProfile lines
  let pagenumStr := zeroPad5 pdf_pagenum
  let page_id0 :=
    match r.2.1 with
    | none => pagenumStr
    | some v => v
  let page_title :=
    match r.2.2 with
    | none => "Page " ++ toString pdf_pagenum
    | some t => t
  let page_id := fs_safe_str page_id0
  ("clean_" ++ pagenumStr ++ "_" ++ page_id ++ ".txt",
   cleanpageHeader page_id page_title ++ r.1)

end PdfManualExtract


theorem zipWith_consecutive (X : List (Nat × Nat)) (a : Nat × Nat) :
    List.zipWith (fun a b => (a.2, b.1)) (a :: X) X = spanChain a.2 X := by
  induction X generalizing a with
  | nil => rfl
  | cons x X ih => simpa [spanChain] using ih x

theorem get_spans_eq (p : Char → Bool) (cs : List Char) :
    StrDelim.get_spans p cs =
      spanChain 0 (finditer1 p cs ++ [(cs.length, cs.length)]) := by
  simpa [StrDelim.get_spans] using
    zipWith_consecutive (finditer1 p cs ++ [(cs.length, cs.length)]) (0, 0)

theorem spanChain_shift (X : List (Nat × Nat)) : ∀ k : Nat,
    spanChain (k + 1) (X.map shiftSpan) = (spanChain k X).map shiftSpan := by
  induction X with
  | nil => intro k; rfl
  | cons x X ih => intro k; simp [spanChain, shiftSpan, ih x.2]

theorem spanChain_shift1 (X : List (Nat × Nat)) :
    spanChain 1 (X.map shiftSpan) = (spanChain 0 X).map shiftSpan :=
  spanChain_shift X 0

theorem spanChain_length (X : List (Nat × Nat)) : ∀ prev : Nat,
    (spanChain prev X).length = X.length := by
  induction X with
  | nil => intro prev; rfl
  | cons x X ih => intro prev; simp [spanChain, ih x.2]

theorem finditer1_cons_pos (p : Char → Bool) (c : Char) (cs : List Char)
    (h : p c = true) :
    finditer1 p (c :: cs) =
      ((0 : Nat), (1 : Nat)) :: (finditer1 p cs).map shiftSpan := by
  simp [finditer1, h, shiftSpan]

theorem finditer1_cons_neg (p : Char → Bool) (c : Char) (cs : List Char)
    (h : p c = false) :
    finditer1 p (c :: cs) = (finditer1 p cs).map shiftSpan := by
  simp [finditer1, h, shiftSpan]

theorem map_shift_append_end (F : List (Nat × Nat)) (c : Char) (cs : List Char) :
    F.map shiftSpan ++ [((c :: cs).length, (c :: cs).length)] =
      (F ++ [(cs.length, cs.length)]).map shiftSpan := by
  simp [shiftSpan]

theorem get_spans_cons_pos (p : Char → Bool) (c : Char) (cs : List Char)
    (h : p c = true) :
    StrDelim.get_spans p (c :: cs) =
      (0, 0) :: (StrDelim.get_spans p cs).map shiftSpan := by
  rw [get_spans_eq, get_spans_eq, finditer1_cons_pos p c cs h]
  rw [List.cons_append]
  show (0, 0) :: spanChain 1 ((finditer1 p cs).map shiftSpan ++
      [((c :: cs).length, (c :: cs).length)]) = _
  rw [map_shift_append_end, spanChain_shift1]

theorem get_spans_first (p : Char → Bool) (cs : List Char) :
    ∃ b rest, StrDelim.get_spans p cs = (0, b) :: rest := by
  rw [get_spans_eq]
  cases hF : finditer1 p cs with
  | nil => exact ⟨cs.length, [], rfl⟩
  | cons x F =>
    exact ⟨x.1, spanChain x.2 (F ++ [(cs.length, cs.length)]), rfl⟩

theorem get_spans_cons_neg (p : Char → Bool) (c : Char) (cs : List Char)
    (h : p c = false) (b : Nat) (rest : List (Nat × Nat))
    (hcs : StrDelim.get_spans p cs = (0, b) :: rest) :
    StrDelim.get_spans p (c :: cs) = (0, b + 1) :: rest.map shiftSpan := by
  rw [get_spans_eq] at hcs ⊢
  rw [finditer1_cons_neg p c cs h, map_shift_append_end]
  cases hX : finditer1 p cs ++ [(cs.length, cs.length)] with
  | nil => exact absurd hX (by simp)
  | cons x X2 =>
    rw [hX] at hcs
    simp only [spanChain, List.cons.injEq, Prod.mk.injEq, true_and] at hcs
    obtain ⟨hb, hrest⟩ := hcs
    simp only [List.map_cons, spanChain, shiftSpan]
    rw [spanChain_shift X2 x.2, hb, hrest]

theorem strSlice_shift (c : Char) (cs : List Char) (sp : Nat × Nat) :
    strSlice (c :: cs) (shiftSpan sp) = strSlice cs sp := by
  cases sp with
  | mk a b => simp [strSlice, shiftSpan, Nat.succ_sub_succ]

theorem contentSplit_ne_nil (p : Char → Bool) (cs : List Char) :
    contentSplit p cs ≠ [] := by
  induction cs with
  | nil => simp [contentSplit]
  | cons c cs ih =>
    by_cases h : p c
    · simp [contentSplit, h]
    · simp only [contentSplit, Bool.not_eq_true] at h ⊢
      rw [h]
      cases hs : contentSplit p cs with
      | nil => exact absurd hs ih
      | cons s ss => simp

theorem map_slice_get_spans (p : Char → Bool) : ∀ cs : List Char,
    (StrDelim.get_spans p cs).map (strSlice cs) = contentSplit p cs := by
  intro cs
  induction cs with
  | nil => rfl
  | cons c cs ih =>
    by_cases h : p c
    · rw [get_spans_cons_pos p c cs h]
      have hsplit : contentSplit p (c :: cs) = [] :: contentSplit p cs := by
        simp [contentSplit, h]
      rw [hsplit, List.map_cons, List.map_map]
      refine congrArg₂ List.cons rfl ?_
      rw [← ih]
      exact List.map_congr_left fun sp _ => strSlice_shift c cs sp
    · have hb : p c = false := by simpa using h
      obtain ⟨b, rest, hcs⟩ := get_spans_first p cs
      rw [get_spans_cons_neg p c cs hb b rest hcs]
      have hsplit0 : contentSplit p cs =
          strSlice cs (0, b) :: rest.map (strSlice cs) := by
        rw [← ih, hcs, List.map_cons]
      have hsplit : contentSplit p (c :: cs) =
          (c :: strSlice cs (0, b)) :: rest.map (strSlice cs) := by
        simp [contentSplit, hb, hsplit0]
      rw [hsplit, List.map_cons, List.map_map]
      refine congrArg₂ List.cons ?_ ?_
      · show strSlice (c :: cs) (0, b + 1) = c :: strSlice cs (0, b)
        simp [strSlice]
      · exact List.map_congr_left fun sp _ => strSlice_shift c cs sp

theorem contentSplit_length (p : Char → Bool) : ∀ cs : List Char,
    (contentSplit p cs).length = cs.countP p + 1 := by
  intro cs
  induction cs with
  | nil => rfl
  | cons c cs ih =>
    by_cases h : p c
    · simp [contentSplit, h, List.countP_cons, ih]
    · have hb : p c = false := by simpa using h
      cases hs : contentSplit p cs with
      | nil => exact absurd hs (contentSplit_ne_nil p cs)
      | cons s ss =>
        have : (contentSplit p (c :: cs)) = (c :: s) :: ss := by
          simp [contentSplit, hb, hs]
        rw [this]
        have hlen := ih
        rw [hs] at hlen
        simp only [List.length_cons] at hlen ⊢
        simp [List.countP_cons, hb, hlen]

theorem get_spans_length (p : Char → Bool) (cs : List Char) :
    (StrDelim.get_spans p cs).length = cs.countP p + 1 := by
  have h := congrArg List.length (map_slice_get_spans p cs)
  simpa [contentSplit_length] using h

theorem interleave_cons_head (c : Char) (s0 : List Char) (ss : List (List Char))
    (ds : List Char) :
    interleave ((c :: s0) :: ss) ds = c :: interleave (s0 :: ss) ds := by
  cases ds <;> rfl

theorem interleave_contentSplit (p : Char → Bool) : ∀ cs : List Char,
    interleave (contentSplit p cs) (cs.filter p) = cs := by
  intro cs
  induction cs with
  | nil => rfl
  | cons c cs ih =>
    by_cases h : p c
    · have hsplit : contentSplit p (c :: cs) = [] :: contentSplit p cs := by
        simp [contentSplit, h]
      have hfilter : (c :: cs).filter p = c :: cs.filter p := by
        simp [List.filter_cons, h]
      rw [hsplit, hfilter]
      cases hs : contentSplit p cs with
      | nil => exact absurd hs (contentSplit_ne_nil p cs)
      | cons s ss =>
        show c :: interleave (s :: ss) (cs.filter p) = c :: cs
        rw [← hs, ih]
    · have hb : p c = false := by simpa using h
      have hfilter : (c :: cs).filter p = cs.filter p := by
        simp [List.filter_cons, hb]
      cases hs : contentSplit p cs with
      | nil => exact absurd hs (contentSplit_ne_nil p cs)
      | cons s ss =>
        have hsplit : contentSplit p (c :: cs) = (c :: s) :: ss := by
          simp [contentSplit, hb, hs]
        rw [hsplit, hfilter, interleave_cons_head, ← hs, ih]

theorem countP_zero_finditer1 (p : Char → Bool) : ∀ cs : List Char,
    cs.countP p = 0 → finditer1 p cs = [] := by
  intro cs
  induction cs with
  | nil => intro _; rfl
  | cons c cs ih =>
    intro h
    rw [List.countP_cons] at h
    cases hc : p c with
    | true => rw [hc] at h; simp at h
    | false =>
      rw [hc] at h
      simp at h
      rw [finditer1_cons_neg p c cs hc,
        ih (List.countP_eq_zero.mpr fun a ha => by simp [h a ha])]
      rfl

theorem get_spans_no_match (p : Char → Bool) (cs : List Char)
    (h : cs.countP p = 0) :
    StrDelim.get_spans p cs = [(0, cs.length)] := by
  rw [get_spans_eq, countP_zero_finditer1 p cs h]
  rfl

theorem spanChain_getD (X : List (Nat × Nat)) : ∀ (i : Nat) (prev : Nat),
    i < X.length →
    (spanChain prev X).getD i (0, 0) =
      ((if i = 0 then prev else (X.getD (i - 1) (0, 0)).2),
        (X.getD i (0, 0)).1) := by
  induction X with
  | nil => intro i prev h; simp at h
  | cons x X ih =>
    intro i prev h
    cases i with
    | zero => simp [spanChain]
    | succ j =>
      have hj : j < X.length := by simpa using h
      simp only [spanChain, List.getD_cons_succ]
      rw [ih j x.2 hj]
      cases j with
      | zero => simp
      | succ k => simp [List.getD_cons_succ]

theorem finditer1_snd (p : Char → Bool) : ∀ (cs : List Char) (sp : Nat × Nat),
    sp ∈ finditer1 p cs → sp.2 = sp.1 + 1 := by
  intro cs
  induction cs with
  | nil => intro sp h; simp [finditer1] at h
  | cons c cs ih =>
    intro sp h
    cases hc : p c with
    | true =>
      rw [finditer1_cons_pos p c cs hc] at h
      rcases List.mem_cons.mp h with h1 | h2
      · rw [h1]
      · obtain ⟨sp2, hmem, hsp⟩ := List.mem_map.mp h2
        rw [← hsp]
        simp [shiftSpan, ih sp2 hmem]
    | false =>
      rw [finditer1_cons_neg p c cs hc] at h
      obtain ⟨sp2, hmem, hsp⟩ := List.mem_map.mp h
      rw [← hsp]
      simp [shiftSpan, ih sp2 hmem]

theorem finditer1_length (p : Char → Bool) : ∀ cs : List Char,
    (finditer1 p cs).length = cs.countP p := by
  intro cs
  induction cs with
  | nil => rfl
  | cons c cs ih =>
    cases hc : p c with
    | true =>
      rw [finditer1_cons_pos p c cs hc]
      simp [List.countP_cons, hc, ih]
    | false =>
      rw [finditer1_cons_neg p c cs hc]
      simp [List.countP_cons, hc, ih]

theorem getD_map_fst (F : List (Nat × Nat)) (j : Nat) (h : j < F.length) :
    (F.map Prod.fst).getD j 0 = (F.getD j (0, 0)).1 := by
  have hget : F[j]? = some F[j] := List.getElem?_eq_getElem h
  simp [List.getD_eq_getElem?_getD, List.getElem?_map, hget]

theorem finditer1_getD_snd (p : Char → Bool) (cs : List Char) (j : Nat)
    (h : j < (finditer1 p cs).length) :
    ((finditer1 p cs).getD j (0, 0)).2 =
      ((finditer1 p cs).getD j (0, 0)).1 + 1 := by
  have hget : (finditer1 p cs)[j]? = some (finditer1 p cs)[j] :=
    List.getElem?_eq_getElem h
  have hmem : (finditer1 p cs)[j] ∈ finditer1 p cs := List.getElem_mem h
  have hsnd := finditer1_snd p cs _ hmem
  simp [List.getD_eq_getElem?_getD, hget, hsnd]

theorem get_spans_getD (p : Char → Bool) (cs : List Char) (i : Nat)
    (h : i < (StrDelim.get_spans p cs).length) :
    (StrDelim.get_spans p cs).getD i (0, 0) =
      ((if i = 0 then 0 else ((finditer1 p cs).map Prod.fst).getD (i - 1) 0 + 1),
        (if i < (finditer1 p cs).length then
          ((finditer1 p cs).map Prod.fst).getD i 0
        else cs.length)) := by
  have hlen : (StrDelim.get_spans p cs).length = (finditer1 p cs).length + 1 := by
    rw [get_spans_eq, spanChain_length]
    simp
  have hX : i < (finditer1 p cs ++ [(cs.length, cs.length)]).length := by
    simp only [List.length_append, List.length_singleton]
    omega
  rw [get_spans_eq, spanChain_getD _ i 0 hX]
  refine congrArg₂ Prod.mk ?_ ?_
  · by_cases hi : i = 0
    · simp [hi]
    · have hi1 : i - 1 < (finditer1 p cs).length := by omega
      rw [if_neg hi, if_neg hi, List.getD_append _ _ _ _ hi1,
        getD_map_fst _ _ hi1, finditer1_getD_snd p cs _ hi1]
  · by_cases hi2 : i < (finditer1 p cs).length
    · rw [if_pos hi2, List.getD_append _ _ _ _ hi2, getD_map_fst _ _ hi2]
    · have hieq : i = (finditer1 p cs).length := by omega
      rw [if_neg hi2, hieq, List.getD_append_right _ _ _ _ (Nat.le_refl _)]
      simp

theorem pageBreaks_eq (cs : List Char) :
    TextBall.pageBreaks cs = (finditer1 formfeedChar cs).map Prod.fst := by
  induction cs with
  | nil => rfl
  | cons c cs ih =>
    cases hc : formfeedChar c with
    | true =>
      rw [finditer1_cons_pos formfeedChar c cs hc]
      simp [TextBall.pageBreaks, hc, ih, shiftSpan, List.map_map, Function.comp]
    | false =>
      rw [finditer1_cons_neg formfeedChar c cs hc]
      simp [TextBall.pageBreaks, hc, ih, shiftSpan, List.map_map, Function.comp]

theorem pageBreaks_length (cs : List Char) :
    (TextBall.pageBreaks cs).length = cs.countP formfeedChar := by
  rw [pageBreaks_eq, List.length_map, finditer1_length]

theorem textBall_count_eq (cs : List Char) (h : cs ≠ []) :
    TextBall.get_page_count cs = cs.countP formfeedChar + 1 := by
  have hne : cs.length ≠ 0 := by
    simpa [List.length_eq_zero] using h
  simp [TextBall.get_page_count, hne, pageBreaks_length]

theorem pyIndex_eq_none_iff {α : Type} (l : List α) (i : Int) :
    pyIndex l i = none ↔ (i < -(l.length : Int) ∨ (l.length : Int) ≤ i) := by
  unfold pyIndex
  by_cases h1 : 0 ≤ i ∧ i < (l.length : Int)
  · rw [if_pos h1]
    have hlt : i.toNat < l.length := by omega
    rw [List.get?_eq_get hlt]
    simp
    omega
  · rw [if_neg h1]
    by_cases h2 : -(l.length : Int) ≤ i ∧ i < 0
    · rw [if_pos h2]
      have hlt : ((l.length : Int) + i).toNat < l.length := by omega
      rw [List.get?_eq_get hlt]
      simp
      omega
    · rw [if_neg h2]
      simp
      omega

theorem pyIndex_nonneg (l : List (Nat × Nat)) (i : Int) (h0 : 0 ≤ i)
    (h1 : i < (l.length : Int)) :
    pyIndex l i = some (l.getD i.toNat (0, 0)) := by
  unfold pyIndex
  rw [if_pos ⟨h0, h1⟩]
  have hlt : i.toNat < l.length := by omega
  rw [List.get?_eq_get hlt, List.getD_eq_getElem?_getD, List.getElem?_eq_getElem hlt]
  rfl

theorem pageSeq_getitem_eq (s : PdfPageSequence) (i : Int) (h0 : 0 ≤ i)
    (h1 : i < (s.len : Int)) :
    s.getitem i = some (PdfPageText.mk i (s.pdf_first_pagenum + i)
      (strSlice s.full_text (s.page_spans.getD i.toNat (0, 0)))) := by
  unfold PdfPageSequence.getitem
  rw [pyIndex_nonneg s.page_spans i h0 h1]
  rfl

theorem textBall_get_page_bytes_eq (cs : List Char) (i : Int) (h0 : 0 ≤ i)
    (h1 : i < (TextBall.get_page_count cs : Int)) :
    TextBall.get_page_bytes cs i =
      some (strSlice cs
        ((StrDelim.get_spans formfeedChar cs).getD i.toNat (0, 0))) := by
  have hne : cs ≠ [] := by
    intro hnil
    rw [hnil] at h1
    simp [TextBall.get_page_count] at h1
    omega
  have hcount := textBall_count_eq cs hne
  have hlen := get_spans_length formfeedChar cs
  have hidx : i.toNat < (StrDelim.get_spans formfeedChar cs).length := by
    have : i < ((cs.countP formfeedChar + 1 : Nat) : Int) := by
      rw [← hcount]; exact h1
    omega
  unfold TextBall.get_page_bytes
  rw [if_pos ⟨h0, h1⟩]
  rw [get_spans_getD formfeedChar cs i.toNat hidx]
  rw [pageBreaks_eq]
  simp [List.length_map]

theorem finditer1_congr (p q : Char → Bool) : ∀ cs : List Char,
    (∀ c ∈ cs, p c = q c) → finditer1 p cs = finditer1 q cs := by
  intro cs
  induction cs with
  | nil => intro _; rfl
  | cons c cs ih =>
    intro h
    have hc : p c = q c := h c (List.mem_cons_self c cs)
    have ih2 := ih fun a ha => h a (List.mem_cons_of_mem c ha)
    cases hq : q c with
    | true =>
      rw [finditer1_cons_pos p c cs (hc.trans hq),
        finditer1_cons_pos q c cs hq, ih2]
    | false =>
      rw [finditer1_cons_neg p c cs (hc.trans hq),
        finditer1_cons_neg q c cs hq, ih2]

theorem get_spans_congr (p q : Char → Bool) (cs : List Char)
    (h : ∀ c ∈ cs, p c = q c) :
    StrDelim.get_spans p cs = StrDelim.get_spans q cs := by
  rw [get_spans_eq, get_spans_eq, finditer1_congr p q cs h]

theorem countP_congr_chars (p q : Char → Bool) (cs : List Char)
    (h : ∀ c ∈ cs, p c = q c) : cs.countP p = cs.countP q := by
  rw [← finditer1_length p cs, ← finditer1_length q cs, finditer1_congr p q cs h]

theorem range_map_getD (l : List (Nat × Nat)) :
    (List.range l.length).map (fun i => l.getD i (0, 0)) = l := by
  induction l with
  | nil => rfl
  | cons x l ih =>
    rw [List.length_cons, List.range_succ_eq_map, List.map_cons, List.map_map]
    refine congrArg₂ List.cons rfl ?_
    have hcomp : ((fun i => (x :: l).getD i (0, 0)) ∘ fun i => i + 1) =
        fun i => l.getD i (0, 0) := by
      funext i
      rfl
    rw [hcomp, ih]

/-- C1: for text with exactly `k` page-break delimiter occurrences, the page
sequence reports `k+1` pages; concatenating the page texts interleaved with
the `k` delimiter substrings (the filtered page-break characters, in order)
reconstructs the text exactly; and with zero matches `StrDelim.get_spans`
returns the single content span covering the entire text. -/
theorem C1_page_segmentation (first : Int) (text : List Char) :
    (PdfPageSequence.mk first text).len = text.countP pagebreakChar + 1 ∧
    interleave
      ((List.range (PdfPageSequence.mk first text).len).map
        (PdfPageSequence.mk first text).pageTextAt)
      (text.filter pagebreakChar) = text ∧
    (text.countP pagebreakChar = 0 →
      StrDelim.get_spans pagebreakChar text = [(0, text.length)]) := by
  refine ⟨get_spans_length pagebreakChar text, ?_,
    fun h => get_spans_no_match pagebreakChar text h⟩
  have hlen : (PdfPageSequence.mk first text).len =
      (PdfPageSequence.mk first text).page_spans.length := rfl
  have h1 : (List.range (PdfPageSequence.mk first text).page_spans.length).map
      (PdfPageSequence.mk first text).pageTextAt =
      (List.range (PdfPageSequence.mk first text).page_spans.length).map
        (fun i => strSlice text
          ((PdfPageSequence.mk first text).page_spans.getD i (0, 0))) := by
    refine List.map_congr_left fun i hi => ?_
    have hilt : i < (PdfPageSequence.mk first text).page_spans.length :=
      List.mem_range.mp hi
    unfold PdfPageSequence.pageTextAt
    rw [pageSeq_getitem_eq (PdfPageSequence.mk first text) (Int.ofNat i)
      (Int.ofNat_nonneg i)
      (Int.ofNat_lt.mpr hilt)]
    simp
  have h2 : (List.range (PdfPageSequence.mk first text).page_spans.length).map
      (fun i => strSlice text
        ((PdfPageSequence.mk first text).page_spans.getD i (0, 0))) =
      (PdfPageSequence.mk first text).page_spans.map (strSlice text) := by
    conv_rhs => rw [← range_map_getD (PdfPageSequence.mk first text).page_spans]
    rw [List.map_map]
    rfl
  rw [hlen, h1, h2]
  have h3 : (PdfPageSequence.mk first text).page_spans =
      StrDelim.get_spans pagebreakChar text := rfl
  rw [h3, map_slice_get_spans pagebreakChar text]
  exact interleave_contentSplit pagebreakChar text

/-- Witness for C1 at the two-character text `"ab"` (zero page breaks). -/
theorem C1_witness :
    (PdfPageSequence.mk 1 (String.data "ab")).len = 1 ∧
    StrDelim.get_spans pagebreakChar (String.data "ab") = [(0, 2)] := by
  have h := C1_page_segmentation 1 (String.data "ab")
  refine ⟨?_, h.2.2 (by decide)⟩
  rw [h.1]
  decide

/-- C6 counterexample: over the empty string `PdfPageSequence` reports one
page, not zero; and for the non-empty text `"\x1a"` `TextBall.get_page_count`
(which only splits on form feeds) is 1 while the Delimiter Scanner finds two
content spans. -/
theorem C6_counterexample :
    (PdfPageSequence.mk 1 ([] : List Char)).len = 1 ∧
    TextBall.get_page_count (String.data "\x1a") = 1 ∧
    (StrDelim.get_spans pagebreakChar (String.data "\x1a")).length = 2 := by
  decide

/-- C6 amended: `PdfPageSequence` always reports the number of content spans
of the Delimiter Scanner, which is the page-break count plus one — in
particular 1, not 0, for empty input; `TextBall.get_page_count` is 0 for
empty input and (number of form feeds) + 1 for non-empty input, which equals
the Delimiter Scanner span count only when every page-break character present
is a form feed. -/
theorem C6_page_count (first : Int) (text : List Char) :
    (PdfPageSequence.mk first text).len =
      (StrDelim.get_spans pagebreakChar text).length ∧
    (PdfPageSequence.mk first text).len = text.countP pagebreakChar + 1 ∧
    TextBall.get_page_count [] = 0 ∧
    (text ≠ [] →
      TextBall.get_page_count text = text.countP formfeedChar + 1) :=
  ⟨rfl, get_spans_length pagebreakChar text, rfl,
    fun h => textBall_count_eq text h⟩

/-- Witness for C6 at the text `"a\fb"`. -/
theorem C6_witness : TextBall.get_page_count (String.data "a\x0cb") = 2 := by
  have h := (C6_page_count 1 (String.data "a\x0cb")).2.2.2 (by decide)
  rw [h]
  decide

/-- C10 counterexample: on the text `"\x1a"` the two page-segmentation
implementations disagree — `TextBall` (form feed only) reports one page,
`PdfPageSequence` (all five page-break characters) reports two. -/
theorem C10_counterexample :
    TextBall.get_page_count (String.data "\x1a") = 1 ∧
    (PdfPageSequence.mk 1 (String.data "\x1a")).len = 2 ∧
    (1 : Nat) ≠ 2 := by
  decide

/-- C10 amended: the two page segmentations agree exactly on non-empty texts
whose only page-break characters are form feeds (no `\x1a`, `\x00`, `\x03`,
`\x04`): then the page counts coincide and every valid page's bytes equal the
corresponding `PdfPageSequence` page text. -/
theorem C10_segmentation_agree (first : Int) (text : List Char) (i : Int)
    (hne : text ≠ [])
    (hout : ∀ c ∈ text,
      (c == '\x1a' || c == '\x00' || c == '\x03' || c == '\x04') = false) :
    TextBall.get_page_count text = (PdfPageSequence.mk first text).len ∧
    (0 ≤ i ∧ i < (TextBall.get_page_count text : Int) →
      TextBall.get_page_bytes text i =
        ((PdfPageSequence.mk first text).getitem i).map PdfPageText.page_text) := by
  have hpq : ∀ c ∈ text, formfeedChar c = pagebreakChar c := by
    intro c hc
    have h4 := hout c hc
    simp only [Bool.or_eq_false_iff] at h4
    obtain ⟨⟨⟨ha, hb⟩, hc3⟩, hd⟩ := h4
    simp [formfeedChar, pagebreakChar, ha, hb, hc3, hd]
  have hcount : TextBall.get_page_count text =
      (PdfPageSequence.mk first text).len := by
    rw [textBall_count_eq text hne]
    show text.countP formfeedChar + 1 =
      (StrDelim.get_spans pagebreakChar text).length
    rw [get_spans_length pagebreakChar text,
      countP_congr_chars formfeedChar pagebreakChar text hpq]
  refine ⟨hcount, ?_⟩
  rintro ⟨h0, h1⟩
  have h1' : i < ((PdfPageSequence.mk first text).len : Int) := by
    rw [← hcount]; exact h1
  rw [textBall_get_page_bytes_eq text i h0 h1,
    pageSeq_getitem_eq (PdfPageSequence.mk first text) i h0 h1']
  have hspans : StrDelim.get_spans formfeedChar text =
      (PdfPageSequence.mk first text).page_spans :=
    get_spans_congr formfeedChar pagebreakChar text hpq
  rw [hspans]
  rfl

/-- Witness for C10 at the text `"a\fb"` and page index 0. -/
theorem C10_witness :
    TextBall.get_page_count (String.data "a\x0cb") =
      (PdfPageSequence.mk 1 (String.data "a\x0cb")).len ∧
    TextBall.get_page_bytes (String.data "a\x0cb") 0 =
      ((PdfPageSequence.mk 1 (String.data "a\x0cb")).getitem 0).map
        PdfPageText.page_text := by
  have h := C10_segmentation_agree 1 (String.data "a\x0cb") 0 (by decide)
    (by decide)
  exact ⟨h.1, h.2 (by decide)⟩

/-- C3 counterexample: `PdfPageSequence.__getitem__` does not fail for every
index outside `[0, pageCount)` — Python tuple indexing wraps negative
indices, so index `-1` on a two-page sequence returns the last page. -/
theorem C3_counterexample :
    ((PdfPageSequence.mk 1 (String.data "ab\x0ccd")).getitem (-1)).isSome =
      true ∧
    ((PdfPageSequence.mk 1 (String.data "ab\x0ccd")).getitem (-1)).map
      PdfPageText.page_text = some (String.data "cd") := by
  decide

/-- C3 amended: page access and line access fail exactly for indices outside
`[-count, count)` — indices in `[0, count)` succeed and negative indices in
`[-count, 0)` wrap around Python-style instead of failing — while
`TextBall.get_page_bytes` fails exactly for indices outside `[0, count)`. -/
theorem C3_index_errors (s : PdfPageSequence) (pg : PdfPageText)
    (cs : List Char) (i : Int) :
    (s.getitem i = none ↔ (i < -(s.len : Int) ∨ (s.len : Int) ≤ i)) ∧
    (pg.getitem i = none ↔ (i < -(pg.len : Int) ∨ (pg.len : Int) ≤ i)) ∧
    (TextBall.get_page_bytes cs i = none ↔
      ¬(0 ≤ i ∧ i < (TextBall.get_page_count cs : Int))) := by
  refine ⟨?_, ?_, ?_⟩
  · unfold PdfPageSequence.getitem
    rw [Option.map_eq_none']
    exact pyIndex_eq_none_iff s.page_spans i
  · unfold PdfPageText.getitem
    rw [Option.map_eq_none']
    exact pyIndex_eq_none_iff pg.line_spans i
  · unfold TextBall.get_page_bytes
    by_cases h : 0 ≤ i ∧ i < (TextBall.get_page_count cs : Int)
    · rw [if_pos h]
      simp [h]
    · rw [if_neg h]
      simp [h]

/-- Witness for C3 at a one-page sequence, index 5 (too large) and TextBall
index -1 (negative). -/
theorem C3_witness :
    (PdfPageSequence.mk 1 (String.data "ab")).getitem 5 = none ∧
    TextBall.get_page_bytes (String.data "ab") (-1) = none := by
  refine ⟨?_, ?_⟩
  · exact (C3_index_errors (PdfPageSequence.mk 1 (String.data "ab"))
      (PdfPageText.mk 0 1 []) (String.data "ab") 5).1.mpr (by decide)
  · exact (C3_index_errors (PdfPageSequence.mk 1 (String.data "ab"))
      (PdfPageText.mk 0 1 []) (String.data "ab") (-1)).2.2.mpr (by decide)

theorem dropWhile_twice (p : Char → Bool) (l : List Char) :
    (l.dropWhile p).dropWhile p = l.dropWhile p := by
  induction l with
  | nil => rfl
  | cons c cs ih =>
    cases hc : p c with
    | true => simp [List.dropWhile_cons, hc, ih]
    | false => simp [List.dropWhile_cons, hc]

theorem dropWhile_of_prefix (p : Char → Bool) (A t : List Char)
    (hA : A.dropWhile p = A) (hpre : t <+: A) : t.dropWhile p = t := by
  cases t with
  | nil => rfl
  | cons c cs =>
    cases A with
    | nil =>
      have := List.prefix_nil.mp hpre
      simp at this
    | cons a as =>
      have hca : c = a := by
        obtain ⟨r, hr⟩ := hpre
        have := congrArg (fun l => l.head?) hr
        simpa using this
      have hpa : p a = false := by
        cases hpa : p a with
        | false => rfl
        | true =>
          exfalso
          have h1 : (a :: as).dropWhile p = as.dropWhile p := by
            simp [List.dropWhile_cons, hpa]
          rw [h1] at hA
          have h2 := (List.dropWhile_suffix (l := as) p).sublist.length_le
          rw [hA] at h2
          simp at h2
      rw [hca, List.dropWhile_cons, hpa]
      simp

theorem stripChars_dropWhile (l : List Char) :
    (stripChars l).dropWhile pyIsSpace = stripChars l := by
  unfold stripChars
  have hAdrop : (l.dropWhile pyIsSpace).dropWhile pyIsSpace =
      l.dropWhile pyIsSpace := dropWhile_twice pyIsSpace l
  have hs : ((l.dropWhile pyIsSpace).reverse.dropWhile pyIsSpace) <:+
      (l.dropWhile pyIsSpace).reverse := List.dropWhile_suffix pyIsSpace
  obtain ⟨t, ht⟩ := hs
  have hpre : ((l.dropWhile pyIsSpace).reverse.dropWhile pyIsSpace).reverse <+:
      l.dropWhile pyIsSpace := by
    refine ⟨t.reverse, ?_⟩
    have := congrArg List.reverse ht
    rw [List.reverse_append, List.reverse_reverse] at this
    exact this
  exact dropWhile_of_prefix pyIsSpace (l.dropWhile pyIsSpace) _ hAdrop hpre

theorem stripChars_idem (l : List Char) :
    stripChars (stripChars l) = stripChars l := by
  have h1 : stripChars (stripChars l) =
      ((stripChars l).reverse.dropWhile pyIsSpace).reverse := by
    unfold stripChars
    rw [show (((l.dropWhile pyIsSpace).reverse.dropWhile pyIsSpace).reverse).dropWhile
        pyIsSpace = ((l.dropWhile pyIsSpace).reverse.dropWhile pyIsSpace).reverse from
      stripChars_dropWhile l]
  rw [h1]
  have h2 : (stripChars l).reverse =
      (l.dropWhile pyIsSpace).reverse.dropWhile pyIsSpace := by
    unfold stripChars
    rw [List.reverse_reverse]
  rw [h2, dropWhile_twice]
  rfl

/-- C2 counterexample: three of the five cleanup operations are not
idempotent. `reformat_pageid` on `["A-1"]` produces `["page-A-1"]` and then
`["page-page-A-1"]` (the rewritten token still ends in a page-id token);
`replace_spacetab` on a tab-pair followed by four spaces first collapses only
the tabs, leaving eight spaces that a second pass collapses again; and
`replace_dotspace` on seven dot-space pairs, a dot, and eight more pairs
leaves a fresh run of eight dot-space pairs that only a second pass rewrites. -/
theorem C2_counterexample :
    TextCleanup.reformat_pageid (TextCleanup.reformat_pageid ["A-1"]) ≠
      TextCleanup.reformat_pageid ["A-1"] ∧
    TextCleanup.replace_spacetab (TextCleanup.replace_spacetab ["\t\t    "]) ≠
      TextCleanup.replace_spacetab ["\t\t    "] ∧
    TextCleanup.replace_dotspace (TextCleanup.replace_dotspace
      [String.mk ((List.replicate 7 ['.', ' ']).flatten ++ ['.'] ++
        (List.replicate 8 ['.', ' ']).flatten)]) ≠
      TextCleanup.replace_dotspace
        [String.mk ((List.replicate 7 ['.', ' ']).flatten ++ ['.'] ++
          (List.replicate 8 ['.', ' ']).flatten)] := by
  refine ⟨by decide, by decide, by decide⟩

/-- C2 amended: of the five cleanup operations, `strip` and `remove_ignored`
are idempotent on every line list, while `replace_spacetab`,
`replace_dotspace` and `reformat_pageid` are not idempotent in general. -/
theorem C2_idempotence :
    (∀ ls : List String,
      TextCleanup.strip (TextCleanup.strip ls) = TextCleanup.strip ls) ∧
    (∀ ls : List String,
      TextCleanup.remove_ignored (TextCleanup.remove_ignored ls) =
        TextCleanup.remove_ignored ls) ∧
    ¬(∀ ls : List String,
      TextCleanup.replace_spacetab (TextCleanup.replace_spacetab ls) =
        TextCleanup.replace_spacetab ls) ∧
    ¬(∀ ls : List String,
      TextCleanup.replace_dotspace (TextCleanup.replace_dotspace ls) =
        TextCleanup.replace_dotspace ls) ∧
    ¬(∀ ls : List String,
      TextCleanup.reformat_pageid (TextCleanup.reformat_pageid ls) =
        TextCleanup.reformat_pageid ls) := by
  refine ⟨?_, ?_, ?_, ?_, ?_⟩
  · intro ls
    unfold TextCleanup.strip
    rw [List.map_map]
    refine List.map_congr_left fun s _ => ?_
    show pyStrip (pyStrip s) = pyStrip s
    unfold pyStrip
    exact congrArg String.mk (stripChars_idem s.data)
  · intro ls
    unfold TextCleanup.remove_ignored
    rw [List.filter_filter]
    exact List.filter_congr fun s _ => by rw [Bool.and_self]
  · intro hall
    exact absurd (hall ["\t\t    "]) (by decide)
  · intro hall
    exact absurd (hall [String.mk ((List.replicate 7 ['.', ' ']).flatten ++
      ['.'] ++ (List.replicate 8 ['.', ' ']).flatten)]) (by decide)
  · intro hall
    exact absurd (hall ["A-1"]) (by decide)

/-- Witness for the amended C2: the idempotent operations at concrete lines. -/
theorem C2_witness :
    TextCleanup.strip (TextCleanup.strip ["  a b\t ", " CONTENTS"]) =
      TextCleanup.strip ["  a b\t ", " CONTENTS"] ∧
    TextCleanup.remove_ignored (TextCleanup.remove_ignored ["a", "", "PAGE"]) =
      TextCleanup.remove_ignored ["a", "", "PAGE"] :=
  ⟨C2_idempotence.1 ["  a b\t ", " CONTENTS"],
    C2_idempotence.2.1 ["a", "", "PAGE"]⟩

theorem scanLoop_cons_eq (line : String) (rest : List String) :
    TextCleanup.scanLoop (line :: rest) =
      match TextCleanup.deriveLine line with
      | some r => some r
      | none => TextCleanup.scanLoop rest := by
  simp only [TextCleanup.scanLoop, TextCleanup.deriveLine]
  cases volPageidMatch line.data with
  | none => rfl
  | some tg =>
    obtain ⟨t, g3⟩ := tg
    cases g3 with
    | some v => rfl
    | none =>
      cases hsp : searchPageid (stripChars t) with
      | none => simp only [hsp]; rfl
      | some w => simp only [hsp]; rfl

theorem scanLoop_eq_findSome (l : List String) :
    TextCleanup.scanLoop l = l.findSome? TextCleanup.deriveLine := by
  induction l with
  | nil => rfl
  | cons line rest ih =>
    rw [scanLoop_cons_eq, List.findSome?_cons, ih]
    cases TextCleanup.deriveLine line <;> rfl

theorem findSome?_unique {α β : Type} (f : α → Option β) (r : β) :
    ∀ l : List α, (∀ x ∈ l, f x = some r ∨ f x = none) →
    (∃ x ∈ l, f x = some r) → l.findSome? f = some r := by
  intro l
  induction l with
  | nil =>
    intro _ hex
    simp at hex
  | cons a l ih =>
    intro hall hex
    rw [List.findSome?_cons]
    cases hfa : f a with
    | some b =>
      rcases hall a (List.mem_cons_self a l) with h | h
      · rw [hfa] at h
        exact h
      · rw [hfa] at h
        exact absurd h (by simp)
    | none =>
      apply ih (fun x hx => hall x (List.mem_cons_of_mem a hx))
      rcases hex with ⟨x, hx, hfx⟩
      rcases List.mem_cons.mp hx with rfl | hx2
      · rw [hfa] at hfx
        exact absurd hfx (by simp)
      · exact ⟨x, hx2, hfx⟩

/-- C4 counterexample: scanning `["X Vol. 2A 1-1", "Y Vol. 2B"]` backward,
the first line scanned is `"Y Vol. 2B"`, which does match the footer pattern
`_RE_VOL_PAGEID` (with no page-id group and no recoverable id); the scan does
not stop there but continues and returns the values derived from the earlier
line `"X Vol. 2A 1-1"` — so `scan_page_id` does not stop at the first line,
scanning backward, that matches the footer pattern. -/
theorem C4_counterexample :
    (volPageidMatch (String.data "Y Vol. 2B")).isSome = true ∧
    (TextCleanup.scan_page_id (TextCleanup.CleanState.mk
      ["X Vol. 2A 1-1", "Y Vol. 2B"] none none)).1 =
      (some "page-1-1", some "X") := by
  refine ⟨by decide, by decide⟩

/-- C4 amended: `scan_page_id` with a truthy cached id or title returns the
cached pair without rescanning; on a fresh state it scans backward and stops
at the first line that both matches the footer pattern and yields a page id
(from group 3, or recovered from the title's trailing text) — lines matching
the pattern without a derivable id are skipped — returning the derived pair
and caching it, or leaving the state unchanged when no line qualifies. -/
theorem C4_scan_behavior (st : TextCleanup.CleanState) (text : List String) :
    ((TextCleanup.pyTruthyStr st.page_title ||
        TextCleanup.pyTruthyStr st.page_id) = true →
      TextCleanup.scan_page_id st = ((st.page_id, st.page_title), st)) ∧
    (TextCleanup.scan_page_id (TextCleanup.CleanState.mk text none none) =
      match text.reverse.findSome? TextCleanup.deriveLine with
      | some r => ((some r.1, some r.2),
          TextCleanup.CleanState.mk text (some r.1) (some r.2))
      | none => ((none, none), TextCleanup.CleanState.mk text none none)) := by
  constructor
  · intro h
    unfold TextCleanup.scan_page_id
    rw [if_pos h]
  · unfold TextCleanup.scan_page_id
    rw [if_neg (by simp [TextCleanup.pyTruthyStr]), scanLoop_eq_findSome]

/-- Witness for C4: the cached branch at a state with a truthy page id. -/
theorem C4_witness :
    TextCleanup.scan_page_id
      (TextCleanup.CleanState.mk ["x"] (some "page-9-9") (some "T")) =
      ((some "page-9-9", some "T"),
        TextCleanup.CleanState.mk ["x"] (some "page-9-9") (some "T")) :=
  (C4_scan_behavior
    (TextCleanup.CleanState.mk ["x"] (some "page-9-9") (some "T")) []).1
    (by decide)

/-- C5: on any line list that contains `"Some Title Vol. 2B 3-42"` and whose
other lines do not match the footer pattern, a fresh `scan_page_id` discovers
page id `"page-3-42"` and page title `"Some Title"`. -/
theorem C5_scan_discovers (ls : List String)
    (hmem : "Some Title Vol. 2B 3-42" ∈ ls)
    (hothers : ∀ l ∈ ls, l ≠ "Some Title Vol. 2B 3-42" →
      volPageidMatch l.data = none) :
    (TextCleanup.scan_page_id (TextCleanup.CleanState.mk ls none none)).1 =
      (some "page-3-42", some "Some Title") := by
  have htarget : TextCleanup.deriveLine "Some Title Vol. 2B 3-42" =
      some ("page-3-42", "Some Title") := by decide
  have hloop : ls.reverse.findSome? TextCleanup.deriveLine =
      some ("page-3-42", "Some Title") := by
    apply findSome?_unique
    · intro x hx
      by_cases hxt : x = "Some Title Vol. 2B 3-42"
      · left
        rw [hxt, htarget]
      · right
        have hnone := hothers x (List.mem_reverse.mp hx) hxt
        unfold TextCleanup.deriveLine
        rw [hnone]
    · exact ⟨"Some Title Vol. 2B 3-42", List.mem_reverse.mpr hmem, htarget⟩
  rw [(C4_scan_behavior (TextCleanup.CleanState.mk ls none none) ls).2, hloop]

/-- Witness for C5 at the singleton line list. -/
theorem C5_witness :
    (TextCleanup.scan_page_id (TextCleanup.CleanState.mk
      ["Some Title Vol. 2B 3-42"] none none)).1 =
      (some "page-3-42", some "Some Title") :=
  C5_scan_discovers ["Some Title Vol. 2B 3-42"] (by decide) (by decide)

/-- C7 counterexample: the current orchestrator's per-page cleaning step
raises `ValueError` when no page identifier is discovered (here on the body
page `["hello"]`), instead of falling back and producing output. -/
theorem C7_counterexample :
    PdfManualExtract.run_pages_clean_page ["hello"] =
      Except.error (PyErr.valueError "Page ID not found") := by rfl

/-- C7 amended: when the scan discovers no page identifier, the deprecated
orchestrator's per-page cleaning still produces output, with the zero-padded
page number (made filesystem-safe) as the identifier and `"Page <n>"` as the
title; the current orchestrator instead fails with `ValueError`. -/
theorem C7_fallbacks (pdf_pagenum : Nat) (lines : List String)
    (hid : (TextCleanup.scan_page_id
      (TextCleanup.CleanState.mk lines none none)).2.page_id = none) :
    PdfManualExtract.run_pages_clean_page lines =
      Except.error (PyErr.valueError "Page ID not found") ∧
    (PdfManualExtract.clean_pages_page pdf_pagenum lines).2 =
      PdfManualExtract.cleanpageHeader
        (PdfManualExtract.fs_safe_str (PdfManualExtract.zeroPad5 pdf_pagenum))
        ("Page " ++ toString pdf_pagenum) ++
        TextCleanup.reformat_pageid lines := by
  have hloop : TextCleanup.scanLoop lines.reverse = none := by
    cases hl : TextCleanup.scanLoop lines.reverse with
    | none => rfl
    | some r =>
      exfalso
      unfold TextCleanup.scan_page_id at hid
      rw [if_neg (by simp [TextCleanup.pyTruthyStr]), hl] at hid
      simp at hid
  have hstate : TextCleanup.scan_page_id
      (TextCleanup.CleanState.mk lines none none) =
      ((none, none), TextCleanup.CleanState.mk lines none none) := by
    unfold TextCleanup.scan_page_id
    rw [if_neg (by simp [TextCleanup.pyTruthyStr]), hloop]
  constructor
  · simp only [PdfManualExtract.run_pages_clean_page,
      PdfManualExtract.runPagesProfile, hstate]
  · simp only [PdfManualExtract.clean_pages_page,
      PdfManualExtract.runPagesProfile, hstate]

/-- Witness for C7 at page number 5 and the id-free page `["hello"]`. -/
theorem C7_witness :
    (PdfManualExtract.clean_pages_page 5 ["hello"]).2 =
      PdfManualExtract.cleanpageHeader
        (PdfManualExtract.fs_safe_str (PdfManualExtract.zeroPad5 5))
        ("Page " ++ toString 5) ++
        TextCleanup.reformat_pageid ["hello"] :=
  (C7_fallbacks 5 ["hello"] (by decide)).2

/-- C8: the filesystem-safe transform maps every string to one containing
only alphanumerics, `-` and `_`; on `"AVX-512/Test!"` it yields
`"AVX-512_Test_"`, and on the empty (or absent, since `s or "_"` treats both
alike) identifier it yields `"_"`. -/
theorem C8_fs_safe (s : String) :
    (PdfManualExtract.fs_safe_str s).data.all
      (fun c => c.isAlphanum || c == '-' || c == '_') = true ∧
    PdfManualExtract.fs_safe_str "AVX-512/Test!" = "AVX-512_Test_" ∧
    PdfManualExtract.fs_safe_str "" = "_" := by
  refine ⟨?_, by decide, by decide⟩
  show ((if s == "" then "_" else s).data.map fun c =>
      if c.isAlphanum || c == '-' || c == '_' then c else '_').all
      (fun c => c.isAlphanum || c == '-' || c == '_') = true
  rw [List.all_map, List.all_eq_true]
  intro c _
  by_cases h : (c.isAlphanum || c == '-' || c == '_') = true
  · simp [Function.comp, h]
  · simp [Function.comp, h]

theorem validate_profile_error : ∀ profile : List (String × PyVal),
    (∃ f ∈ profile, TextCleanup.callableNames.contains f.1 = false ∨
      f.2.isBool = false) →
    ∃ e, TextCleanup.validate_profile profile = Except.error e := by
  intro profile
  induction profile with
  | nil =>
    intro h
    simp at h
  | cons nv rest ih =>
    intro h
    obtain ⟨name, value⟩ := nv
    unfold TextCleanup.validate_profile
    by_cases h1 : (name == "") = true
    · rw [if_pos h1]
      exact ⟨_, rfl⟩
    · rw [if_neg h1]
      by_cases h2 : TextCleanup.startsWithUnderscore name = true
      · rw [if_pos h2]
        exact ⟨_, rfl⟩
      · rw [if_neg h2]
        by_cases h3 : (!(TextCleanup.callableNames.contains name)) = true
        · rw [if_pos h3]
          exact ⟨_, rfl⟩
        · rw [if_neg h3]
          by_cases h4 : (!(value.isBool)) = true
          · rw [if_pos h4]
            exact ⟨_, rfl⟩
          · rw [if_neg h4]
            apply ih
            simp only [Bool.not_eq_true', Bool.not_eq_false] at h3 h4
            rcases h with ⟨f, hf, hbad⟩
            rcases List.mem_cons.mp hf with heq | hf2
            · exfalso
              rw [heq] at hbad
              rcases hbad with hb | hb
              · rw [h3] at hb
                exact Bool.noConfusion hb
              · rw [h4] at hb
                exact Bool.noConfusion hb
            · exact ⟨f, hf2, hbad⟩

/-- C9: `TextCleanup` construction validates the profile before any
processing: every well-formed boolean profile (the seven fields, any boolean
values) is accepted and yields the fresh state, while any profile carrying a
field that does not name a callable operation or a non-boolean value makes
construction fail with a configuration error, so no state is built. -/
theorem C9_profile_validation (text : List String)
    (profile : List (String × PyVal)) :
    (∀ b1 b2 b3 b4 b5 b6 b7 : Bool,
      TextCleanup.init text (TextCleanup.standardProfile b1 b2 b3 b4 b5 b6 b7) =
        Except.ok (TextCleanup.CleanState.mk text none none)) ∧
    ((∃ f ∈ profile, TextCleanup.callableNames.contains f.1 = false ∨
        f.2.isBool = false) →
      ∃ e, TextCleanup.init text profile = Except.error e) := by
  constructor
  · intro b1 b2 b3 b4 b5 b6 b7
    rfl
  · intro hex
    obtain ⟨e, he⟩ := validate_profile_error profile hex
    refine ⟨e, ?_⟩
    unfold TextCleanup.init
    rw [he]

/-- Witness for C9: the default all-enabled profile is accepted; a profile
whose `strip` field carries the integer 1 (not a boolean) is rejected. -/
theorem C9_witness :
    TextCleanup.init ["x"]
      (TextCleanup.standardProfile true true true true true true true) =
      Except.ok (TextCleanup.CleanState.mk ["x"] none none) ∧
    ∃ e, TextCleanup.init ["x"] [("strip", PyVal.intVal 1)] =
      Except.error e := by
  have h := C9_profile_validation ["x"] [("strip", PyVal.intVal 1)]
  exact ⟨h.1 true true true true true true true,
    h.2 ⟨("strip", PyVal.intVal 1), by simp, Or.inr rfl⟩⟩
